import Mathlib

/-!
Shallow embedding of the outreach-mas core: the lead-status state machine
driven by `agents/orchestrator.py` (phases A and B), the follow-up agent
timing and reply-check logic (`agents/follow_up_agent.py`), the template
composer (`agents/email_crafting_agent.py`), and the JSON persistence
layout of the status store.  External collaborators (Gmail send and
search, the generative composer, BigQuery) enter as explicit result
parameters; every piece of control flow below is translated from the
Python source.
-/

namespace Outreach

/-- Denotation of an ISO-8601 timestamp string as used by the agents:
`valid n` stands for a timezone-aware string whose instant is `n` time
units (seconds) since the epoch, `malformed` for a string on which the
parse-and-compare in the agent raises (caught and turned into `False`
in the source). -/
inductive Timestamp where
  | valid (epochSec : Int)
  | malformed
deriving DecidableEq

/-- One value of the status store (`lead_status[email]` in
`agents/orchestrator.py`): a JSON object whose fields may be absent. -/
structure LeadRecord where
  status : Option String := none
  initial_sent_timestamp : Option Timestamp := none
  follow_up_sent_timestamp : Option Timestamp := none
  replied_timestamp : Option Timestamp := none
deriving DecidableEq

/-- A lead row as produced by the lead source; every field is optional
because dictionary key access (`lead[...]`) can raise `KeyError`. -/
structure Lead where
  firstName : Option String := none
  lastName : Option String := none
  email : Option String := none
  company : Option String := none
  title : Option String := none
  industry : Option String := none
deriving DecidableEq

/-- The template parameters read from `config` by the crafting agent. -/
structure TemplateVars where
  your_name : String
  your_title : String
  portfolio_link : String
deriving DecidableEq

/-- A composed email (`{subject, body}` dictionary). -/
structure EmailDraft where
  subject : String
  body : String
deriving DecidableEq

/-- The in-memory status store: an insertion-ordered mapping from lead
email to record, as a Python `dict` is. -/
abbrev Store := List (String × LeadRecord)

/-- Dictionary read `store.get(email)`: first binding wins. -/
def lookupStore : Store → String → Option LeadRecord
  | [], _ => none
  | (k, v) :: t, e => if k = e then some v else lookupStore t e

/-- Dictionary write `store[email] = r`: replace in place if the key
exists, else append (Python dicts preserve insertion order). -/
def insertStore : Store → String → LeadRecord → Store
  | [], e, r => [(e, r)]
  | (k, v) :: t, e, r => if k = e then (k, r) :: t else (k, v) :: insertStore t e r

/-- The empty record `{}` created on first update of a lead. -/
def emptyRecord : LeadRecord := {}

/-- FollowUpAgent.check_for_reply (agents/follow_up_agent.py, lines
23-68).  `gmailAvailable` is whether `get_gmail_service` succeeded;
`searchResult` is the outcome of the Gmail list call, `.ok n` giving
the number of messages found and `.error` standing for an `HttpError`
or any other exception from the call.  Every failure path of the
source returns `False`. -/
def check_for_reply (gmailAvailable : Bool) (ts : Timestamp)
    (searchResult : Except Unit Nat) : Bool :=
  if gmailAvailable = false then false
  else
    match ts with
    | .malformed => false
    | .valid _ =>
      match searchResult with
      | .error _ => false
      | .ok replyCount => decide (0 < replyCount)

/-- FollowUpAgent.should_send_follow_up (agents/follow_up_agent.py,
lines 70-103): `current_time >= sent_time + timedelta(hours=delay)`,
with any parse or comparison exception caught and turned into `False`. -/
def should_send_follow_up (delayHours : Nat) (now : Int) (ts : Timestamp) : Bool :=
  match ts with
  | .malformed => false
  | .valid sent => decide (sent + (delayHours : Int) * 3600 ≤ now)

/-- Body template of the initial email (agents/email_crafting_agent.py,
lines 36-54); the surrounding text is fixed, the lead first name and
the configured values are interpolated. -/
def initialBody (cfg : TemplateVars) (firstName : String) : String :=
  "Hi " ++ firstName ++ ",\n\nI\x27m " ++ cfg.your_name ++
  " from Reason GTMC. We partner with creators and brands like yours to tell powerful stories through cinematic video.\n\n" ++
  "Our team handles every aspect of production, from initial concept and creative strategy to the final cut, using the industry\x27s best equipment to bring ambitious ideas to life. We believe the best work comes from true collaboration, where we serve as the creative and technical engine for your vision. This means we start by diving deep into your brand\x27s objectives to ensure we\x27re perfectly aligned.\n\n" ++
  "Our in-house process covers everything: storyboarding, scripting, on-location shooting, and meticulous post-production, including cinematic editing, color grading, and sound design.\n\n" ++
  "Whether it\x27s a documentary that captures your brand\x27s ethos, a high-energy brand campaign, or a polished podcast series, we build a process around your goals to ensure the final product is both beautiful and impactful.\n\n" ++
  "Here\x27s a glimpse into our style: " ++ cfg.portfolio_link ++ "\n\n" ++
  "If you\x27re looking for a dedicated partner for your next project, we\x27d love to schedule a brief call to learn more about your vision.\n\nAll the best,\n\n" ++
  cfg.your_name ++ "\n" ++ cfg.your_title ++ "\nReason GTM&C"

/-- EmailCraftingAgent.draft_initial_email (agents/email_crafting_agent.py,
lines 23-64).  The subject f-string reads `lead[company]` and the body
f-string reads `lead[firstName]`; a `KeyError` on either is caught and
the function returns the sentinel `{subject: Error, body: Error drafting
email}` dictionary.  The template has no leading or trailing whitespace,
so the final `.strip()` calls are the identity. -/
def draft_initial_email (cfg : TemplateVars) (lead : Lead) : EmailDraft :=
  match lead.company, lead.firstName with
  | some company, some firstName =>
    { subject := "A Partnership in Storytelling for " ++ company
      body := initialBody cfg firstName }
  | _, _ => { subject := "Error", body := "Error drafting email" }

/-- Observable collaborator calls made by the orchestrator loops. -/
inductive Action where
  | composeInitial (email : String)
  | sendInitial (email subject body : String)
  | composeFollowUp (email : String)
  | sendFollowUp (email subject body : String)
deriving DecidableEq

/-- The lead email an action is about. -/
def actionEmail : Action → String
  | .composeInitial e => e
  | .sendInitial e _ _ => e
  | .composeFollowUp e => e
  | .sendFollowUp e _ _ => e

/-- Whether an action is a follow-up send attempt. -/
def isFollowUpSend : Action → Bool
  | .sendFollowUp _ _ _ => true
  | _ => false

/-- Whether an action composes or sends a follow-up. -/
def isFollowUpAction : Action → Bool
  | .composeFollowUp _ => true
  | .sendFollowUp _ _ _ => true
  | _ => false

/-- The actions of a log that concern one lead. -/
def actionsFor (em : String) (log : List Action) : List Action :=
  log.filter fun a => actionEmail a == em

/-- Whether a log contains a follow-up send attempt to a lead. -/
def sendsFollowUpTo (em : String) (log : List Action) : Bool :=
  (actionsFor em log).any isFollowUpSend

/-- Whether a log composes or sends any follow-up for a lead. -/
def composesOrSendsFollowUpTo (em : String) (log : List Action) : Bool :=
  (actionsFor em log).any isFollowUpAction

/-- OrchestratorAgent._update_lead_status (agents/orchestrator.py, lines
67-103): create the record if absent, set `status`, and set the one
timestamp field selected by the status string.  The `_save_state` call
and the BigQuery mirror are external side effects with no effect on the
store value. -/
def updateLeadStatus (store : Store) (email status : String)
    (timestamp : Option Timestamp) : Store :=
  let r0 := (lookupStore store email).getD emptyRecord
  let r1 := { r0 with status := some status }
  insertStore store email <|
    if status = "INITIAL_EMAIL_SENT" then { r1 with initial_sent_timestamp := timestamp }
    else if status = "FOLLOW_UP_SENT" then { r1 with follow_up_sent_timestamp := timestamp }
    else if status = "REPLIED" then { r1 with replied_timestamp := timestamp }
    else r1

/-- One iteration of the Phase A loop body (agents/orchestrator.py,
lines 114-140) after `email = lead[email]` succeeded: read the status
with default PENDING, and for a PENDING lead compose the initial email,
check the draft guard, attempt the send (its outcome is `sendOk`) and
on success record INITIAL_EMAIL_SENT at the current time `now`. -/
def processNewLeadStep (cfg : TemplateVars) (sendOk : Bool) (now : Int)
    (store : Store) (email : String) (lead : Lead) : Store × List Action :=
  let status := ((lookupStore store email).getD emptyRecord).status.getD "PENDING"
  if status = "PENDING" then
    let draft := draft_initial_email cfg lead
    if draft.subject ≠ "" ∧ draft.body ≠ "" then
      let log := [Action.composeInitial email,
                  Action.sendInitial email draft.subject draft.body]
      if sendOk then
        (updateLeadStatus store email "INITIAL_EMAIL_SENT" (some (.valid now)), log)
      else (store, log)
    else (store, [Action.composeInitial email])
  else (store, [])

/-- Outcome of a phase of the run: final store, collaborator-call log,
and whether an uncaught exception aborted the remaining iterations
(`run_workflow` only logs and re-raises such an exception, after the
`finally` block saves the store reached so far). -/
structure PhaseResult where
  store : Store
  log : List Action
  aborted : Bool
deriving DecidableEq

/-- The whole Phase A loop (agents/orchestrator.py, lines 105-142).
`lead[email]` on a lead without the key raises `KeyError`, which no
handler inside the loop catches: the remaining leads are not processed. -/
def processNewLeads (cfg : TemplateVars) (sendOk : String → Bool) (now : Int)
    (store : Store) : List Lead → PhaseResult
  | [] => { store := store, log := [], aborted := false }
  | lead :: rest =>
    match lead.email with
    | none => { store := store, log := [], aborted := true }
    | some email =>
      let step := processNewLeadStep cfg (sendOk email) now store email lead
      let r := processNewLeads cfg sendOk now step.1 rest
      { r with log := step.2 ++ r.log }

/-- Per-lead collaborator outcomes consulted by the Phase B loop body:
availability of the Gmail service and the result of the reply search
(inputs of `check_for_reply`), whether the lead row is found among the
fetched leads, the follow-up draft returned by the generative composer
(`none` when it failed), and the follow-up send outcome. -/
structure FollowUpEnv where
  gmailAvailable : Bool
  replySearch : Except Unit Nat
  leadFound : Bool
  draft : Option EmailDraft
  sendOk : Bool

/-- One iteration of the Phase B loop body (agents/orchestrator.py,
lines 154-199) for the snapshot entry `(email, data)`: skip non
INITIAL_EMAIL_SENT records, skip on a missing `initial_sent_timestamp`,
check for a reply first (transition to REPLIED and stop), then apply the
time gate, locate the lead row, compose, guard, send, and on success
record FOLLOW_UP_SENT. -/
def processFollowUpStep (delayHours : Nat) (now : Int) (env : FollowUpEnv)
    (store : Store) (email : String) (data : LeadRecord) : Store × List Action :=
  if data.status ≠ some "INITIAL_EMAIL_SENT" then (store, [])
  else
    match data.initial_sent_timestamp with
    | none => (store, [])
    | some ts =>
      if check_for_reply env.gmailAvailable ts env.replySearch then
        (updateLeadStatus store email "REPLIED" (some (.valid now)), [])
      else if should_send_follow_up delayHours now ts then
        if env.leadFound = false then (store, [])
        else
          match env.draft with
          | none => (store, [Action.composeFollowUp email])
          | some d =>
            if d.subject ≠ "" ∧ d.body ≠ "" then
              let log := [Action.composeFollowUp email,
                          Action.sendFollowUp email d.subject d.body]
              if env.sendOk then
                (updateLeadStatus store email "FOLLOW_UP_SENT" (some (.valid now)), log)
              else (store, log)
            else (store, [Action.composeFollowUp email])
      else (store, [])

/-- The Phase B loop over a snapshot of the store items, threading the
mutated store (the Python loop iterates `list(self.lead_status.items())`
while `_update_lead_status` mutates `self.lead_status`). -/
def processFollowUpsAux (delayHours : Nat) (now : Int) (envs : String → FollowUpEnv) :
    Store → List (String × LeadRecord) → Store × List Action
  | store, [] => (store, [])
  | store, (email, data) :: rest =>
    let step := processFollowUpStep delayHours now (envs email) store email data
    let r := processFollowUpsAux delayHours now envs step.1 rest
    (r.1, step.2 ++ r.2)

/-- The whole Phase B pass (agents/orchestrator.py, lines 144-201). -/
def processFollowUps (delayHours : Nat) (now : Int) (envs : String → FollowUpEnv)
    (store : Store) : Store × List Action :=
  processFollowUpsAux delayHours now envs store store

/-! Persistence layout.  `_load_state` and `_save_state` (lines 36-65)
pass the mapping through `json.load` and `json.dump` unchanged; a
record on disk is a JSON object whose fields are strings.  The field
lists below are the JSON objects in file order. -/

/-- The fields of one persisted record, in file order. -/
abbrev JsonFields := List (String × String)

/-- The persisted mapping: email to record fields, in file order. -/
abbrev JsonStore := List (String × JsonFields)

/-- JSON object field read: first binding wins. -/
def lookupField : JsonFields → String → Option String
  | [], _ => none
  | (k, v) :: t, key => if k = key then some v else lookupField t key

/-- Top-level read of the persisted mapping. -/
def lookupJson : JsonStore → String → Option JsonFields
  | [], _ => none
  | (k, v) :: t, key => if k = key then some v else lookupJson t key

/-- In-memory form of a persisted record: the four fields the program
reads, each absent or a string. -/
structure StoredRecord where
  status : Option String := none
  initial_sent_timestamp : Option String := none
  follow_up_sent_timestamp : Option String := none
  replied_timestamp : Option String := none
deriving DecidableEq

/-- Reading one record object from the file (what the dictionary the
program works with holds for each field). -/
def loadRecord (fields : JsonFields) : StoredRecord :=
  { status := lookupField fields "status"
    initial_sent_timestamp := lookupField fields "initial_sent_timestamp"
    follow_up_sent_timestamp := lookupField fields "follow_up_sent_timestamp"
    replied_timestamp := lookupField fields "replied_timestamp" }

/-- Writing one record back: present fields only, no nulls. -/
def saveRecord (r : StoredRecord) : JsonFields :=
  (match r.status with | some v => [("status", v)] | none => []) ++
  (match r.initial_sent_timestamp with
   | some v => [("initial_sent_timestamp", v)] | none => []) ++
  (match r.follow_up_sent_timestamp with
   | some v => [("follow_up_sent_timestamp", v)] | none => []) ++
  (match r.replied_timestamp with
   | some v => [("replied_timestamp", v)] | none => [])

/-- OrchestratorAgent._load_state on a readable file: the whole mapping. -/
def loadState (x : JsonStore) : List (String × StoredRecord) :=
  x.map fun p => (p.1, loadRecord p.2)

/-- OrchestratorAgent._save_state: the whole mapping written back. -/
def saveState (m : List (String × StoredRecord)) : JsonStore :=
  m.map fun p => (p.1, saveRecord p.2)

/-- A field value of the persisted mapping, by email and field key. -/
def fieldOf (x : JsonStore) (em k : String) : Option String :=
  (lookupJson x em).bind fun fields => lookupField fields k

/-- The four field keys of the persisted record layout. -/
def recordKeys : List String :=
  ["status", "initial_sent_timestamp", "follow_up_sent_timestamp", "replied_timestamp"]

/-- Well-formed persisted record object: keys drawn from the layout,
no duplicates. -/
def RecordFieldsWF (fields : JsonFields) : Prop :=
  (fields.map Prod.fst).Nodup ∧ ∀ p ∈ fields, p.1 ∈ recordKeys

/-- Well-formed persisted mapping: every record object well formed. -/
def JsonStoreWF (x : JsonStore) : Prop :=
  ∀ p ∈ x, RecordFieldsWF p.2

instance (fields : JsonFields) : Decidable (RecordFieldsWF fields) := by
  unfold RecordFieldsWF; infer_instance

instance (x : JsonStore) : Decidable (JsonStoreWF x) := by
  unfold JsonStoreWF; infer_instance

/-! State-machine view: the status-store mutations a run can perform,
for the forward-progress and timestamp-stability invariants. -/

/-- One Reconciler operation: a Phase A loop body for one fetched lead,
or a Phase B loop body for one tracked record (the snapshot entry a
Phase B iteration works on is the current record of that email, since
no other iteration mutates it). -/
inductive Op where
  | phaseA (cfg : TemplateVars) (sendOk : Bool) (now : Int) (email : String) (lead : Lead)
  | phaseB (env : FollowUpEnv) (delayHours : Nat) (now : Int) (email : String)

/-- Effect of one operation on the store. -/
def applyOp (store : Store) : Op → Store
  | .phaseA cfg sendOk now email lead =>
    (processNewLeadStep cfg sendOk now store email lead).1
  | .phaseB env delayHours now email =>
    match lookupStore store email with
    | none => store
    | some data => (processFollowUpStep delayHours now env store email data).1

/-- Effect of a sequence of operations. -/
def applyOps (store : Store) (ops : List Op) : Store :=
  ops.foldl applyOp store

/-- The status a record and hence its lead is in: `none` and `PENDING`
both read as pending (absence from the store is the implicit default). -/
def statusOf (store : Store) (em : String) : Option String :=
  (lookupStore store em).bind LeadRecord.status

/-- The stored initial-send timestamp of a lead, if any. -/
def initialTsOf (store : Store) (em : String) : Option Timestamp :=
  (lookupStore store em).bind LeadRecord.initial_sent_timestamp

/-- The stored follow-up timestamp of a lead, if any. -/
def followTsOf (store : Store) (em : String) : Option Timestamp :=
  (lookupStore store em).bind LeadRecord.follow_up_sent_timestamp

/-- The stored reply timestamp of a lead, if any. -/
def repliedTsOf (store : Store) (em : String) : Option Timestamp :=
  (lookupStore store em).bind LeadRecord.replied_timestamp

/-- Position of a status value along the lifecycle. -/
def rank : Option String → Nat
  | some "INITIAL_EMAIL_SENT" => 1
  | some "FOLLOW_UP_SENT" => 2
  | some "REPLIED" => 3
  | _ => 0

/-- The legal forward edges of the lifecycle (reflexivity included):
pending to INITIAL_EMAIL_SENT, INITIAL_EMAIL_SENT to FOLLOW_UP_SENT or
REPLIED, FOLLOW_UP_SENT to REPLIED. -/
def forwardStep (s t : Option String) : Prop :=
  t = s ∨
  ((s = none ∨ s = some "PENDING") ∧ t = some "INITIAL_EMAIL_SENT") ∨
  (s = some "INITIAL_EMAIL_SENT" ∧ (t = some "FOLLOW_UP_SENT" ∨ t = some "REPLIED")) ∨
  (s = some "FOLLOW_UP_SENT" ∧ t = some "REPLIED")

/-- Record sanity carried by every store the system builds: a record
still pending carries no timestamps, and a record awaiting a reply
carries no follow-up or reply timestamp yet. -/
def WFrec (r : LeadRecord) : Prop :=
  ((r.status = none ∨ r.status = some "PENDING") →
    r.initial_sent_timestamp = none ∧ r.follow_up_sent_timestamp = none ∧
    r.replied_timestamp = none) ∧
  (r.status = some "INITIAL_EMAIL_SENT" →
    r.follow_up_sent_timestamp = none ∧ r.replied_timestamp = none)

/-- Store sanity: every record well formed. -/
def StoreWF (store : Store) : Prop :=
  ∀ p ∈ store, WFrec p.2

instance (r : LeadRecord) : Decidable (WFrec r) := by
  unfold WFrec; infer_instance

instance (store : Store) : Decidable (StoreWF store) := by
  unfold StoreWF; infer_instance

/-! Basic store lemmas. -/

theorem lookup_insert_self (s : Store) (em : String) (r : LeadRecord) :
    lookupStore (insertStore s em r) em = some r := by
  induction s with
  | nil => simp [insertStore, lookupStore]
  | cons p t ih =>
    obtain ⟨k, v⟩ := p
    by_cases h : k = em
    · simp [insertStore, lookupStore, h]
    · simp [insertStore, lookupStore, h, ih]

theorem lookup_insert_ne (s : Store) (em em' : String) (r : LeadRecord)
    (h : em' ≠ em) : lookupStore (insertStore s em r) em' = lookupStore s em' := by
  induction s with
  | nil =>
    simp only [insertStore, lookupStore]
    rw [if_neg (fun hc : em = em' => h hc.symm)]
  | cons p t ih =>
    obtain ⟨k, v⟩ := p
    simp only [insertStore]
    by_cases hk : k = em
    · rw [if_pos hk]
      have hk' : k ≠ em' := by rw [hk]; exact Ne.symm h
      simp only [lookupStore]
      rw [if_neg hk', if_neg hk']
    · rw [if_neg hk]
      simp only [lookupStore]
      by_cases hke : k = em'
      · rw [if_pos hke, if_pos hke]
      · rw [if_neg hke, if_neg hke]
        exact ih

theorem lookupStore_mem {s : Store} {em : String} {r : LeadRecord}
    (h : lookupStore s em = some r) : (em, r) ∈ s := by
  induction s with
  | nil => simp [lookupStore] at h
  | cons p t ih =>
    obtain ⟨k, v⟩ := p
    by_cases hk : k = em
    · subst hk
      simp [lookupStore] at h
      simp [h]
    · simp [lookupStore, hk] at h
      exact List.mem_cons_of_mem _ (ih h)

theorem mem_insertStore {s : Store} {em : String} {r : LeadRecord}
    {p : String × LeadRecord} (h : p ∈ insertStore s em r) :
    p ∈ s ∨ p = (em, r) := by
  induction s with
  | nil =>
    simp [insertStore] at h
    right; exact h
  | cons q t ih =>
    obtain ⟨k, v⟩ := q
    by_cases hk : k = em
    · subst hk
      simp only [insertStore, if_pos rfl] at h
      rcases List.mem_cons.mp h with h | h
      · right; rw [h]
      · left; exact List.mem_cons_of_mem _ h
    · simp only [insertStore, if_neg hk] at h
      rcases List.mem_cons.mp h with h | h
      · left; rw [h]; exact List.mem_cons_self _ _
      · rcases ih h with h' | h'
        · left; exact List.mem_cons_of_mem _ h'
        · right; exact h'

theorem lookup_of_mem_nodup {s : Store} {em : String} {d : LeadRecord}
    (hmem : (em, d) ∈ s) (hnd : (s.map Prod.fst).Nodup) :
    lookupStore s em = some d := by
  induction s with
  | nil => cases hmem
  | cons p t ih =>
    obtain ⟨k, v⟩ := p
    rcases List.mem_cons.mp hmem with h | h
    · obtain ⟨h1, h2⟩ := Prod.mk.injEq .. ▸ h
      simp [lookupStore, h1.symm, h2]
    · have hk : k ≠ em := by
        intro hke
        subst hke
        have : k ∈ t.map Prod.fst := List.mem_map.mpr ⟨(k, d), h, rfl⟩
        exact (List.nodup_cons.mp hnd).1 this
      simp only [lookupStore, if_neg hk]
      exact ih h (List.nodup_cons.mp hnd).2

theorem StoreWF_insert {s : Store} {em : String} {r : LeadRecord}
    (hs : StoreWF s) (hr : WFrec r) : StoreWF (insertStore s em r) := by
  intro p hp
  rcases mem_insertStore hp with h | h
  · exact hs p h
  · rw [h]; exact hr

/-! Lemmas about `updateLeadStatus`. -/

theorem updateLS_lookup_ne (s : Store) (em em' st : String) (ts : Option Timestamp)
    (h : em' ≠ em) :
    lookupStore (updateLeadStatus s em st ts) em' = lookupStore s em' := by
  unfold updateLeadStatus
  exact lookup_insert_ne _ _ _ _ h

theorem updateLS_lookup_congr {s₁ s₂ : Store} (em st : String) (ts : Option Timestamp)
    (h : lookupStore s₁ em = lookupStore s₂ em) :
    lookupStore (updateLeadStatus s₁ em st ts) em =
      lookupStore (updateLeadStatus s₂ em st ts) em := by
  unfold updateLeadStatus
  rw [lookup_insert_self, lookup_insert_self, h]

theorem updateLS_initial (s : Store) (em : String) (ts : Option Timestamp) :
    updateLeadStatus s em "INITIAL_EMAIL_SENT" ts =
      insertStore s em
        { (lookupStore s em).getD emptyRecord with
          status := some "INITIAL_EMAIL_SENT", initial_sent_timestamp := ts } := rfl

theorem updateLS_followUp (s : Store) (em : String) (ts : Option Timestamp) :
    updateLeadStatus s em "FOLLOW_UP_SENT" ts =
      insertStore s em
        { (lookupStore s em).getD emptyRecord with
          status := some "FOLLOW_UP_SENT", follow_up_sent_timestamp := ts } := rfl

theorem updateLS_replied (s : Store) (em : String) (ts : Option Timestamp) :
    updateLeadStatus s em "REPLIED" ts =
      insertStore s em
        { (lookupStore s em).getD emptyRecord with
          status := some "REPLIED", replied_timestamp := ts } := rfl

/-! Shape lemmas for the two loop bodies. -/

theorem newLeadStep_fst (cfg : TemplateVars) (sendOk : Bool) (now : Int)
    (s : Store) (em : String) (lead : Lead) :
    (processNewLeadStep cfg sendOk now s em lead).1 = s ∨
    (((lookupStore s em).getD emptyRecord).status.getD "PENDING" = "PENDING" ∧
      (processNewLeadStep cfg sendOk now s em lead).1 =
        updateLeadStatus s em "INITIAL_EMAIL_SENT" (some (.valid now))) := by
  simp only [processNewLeadStep]
  split
  case isTrue h =>
    split
    · split
      · right; exact ⟨h, rfl⟩
      · left; rfl
    · left; rfl
  case isFalse _ => left; rfl

theorem newLeadStep_skip (cfg : TemplateVars) (sendOk : Bool) (now : Int)
    (s : Store) (em : String) (lead : Lead)
    (h : ((lookupStore s em).getD emptyRecord).status.getD "PENDING" ≠ "PENDING") :
    processNewLeadStep cfg sendOk now s em lead = (s, []) := by
  simp only [processNewLeadStep]
  rw [if_neg h]

theorem newLeadStep_lookup_ne (cfg : TemplateVars) (sendOk : Bool) (now : Int)
    (s : Store) (em em' : String) (lead : Lead) (h : em' ≠ em) :
    lookupStore (processNewLeadStep cfg sendOk now s em lead).1 em' =
      lookupStore s em' := by
  rcases newLeadStep_fst cfg sendOk now s em lead with h1 | ⟨_, h1⟩
  · rw [h1]
  · rw [h1, updateLS_lookup_ne _ _ _ _ _ h]

theorem newLeadStep_actionsFor_ne (cfg : TemplateVars) (sendOk : Bool) (now : Int)
    (s : Store) (em em' : String) (lead : Lead) (h : em' ≠ em) :
    actionsFor em' (processNewLeadStep cfg sendOk now s em lead).2 = [] := by
  have hne : ¬em = em' := fun hc => h hc.symm
  simp only [processNewLeadStep]
  repeat' split
  all_goals simp [actionsFor, actionEmail, hne]

theorem followUpStep_fst (delayHours : Nat) (now : Int) (env : FollowUpEnv)
    (s : Store) (em : String) (data : LeadRecord) :
    (processFollowUpStep delayHours now env s em data).1 = s ∨
    (data.status = some "INITIAL_EMAIL_SENT" ∧
      ((processFollowUpStep delayHours now env s em data).1 =
        updateLeadStatus s em "REPLIED" (some (.valid now)) ∨
       (processFollowUpStep delayHours now env s em data).1 =
        updateLeadStatus s em "FOLLOW_UP_SENT" (some (.valid now)))) := by
  simp only [processFollowUpStep]
  split
  case isTrue _ => left; rfl
  case isFalse hst =>
    have hst' : data.status = some "INITIAL_EMAIL_SENT" := by
      by_contra hc; exact hst hc
    split
    · left; rfl
    · split
      · right; exact ⟨hst', Or.inl rfl⟩
      · split
        · split
          · left; rfl
          · split
            · left; rfl
            · split
              · split
                · right; exact ⟨hst', Or.inr rfl⟩
                · left; rfl
              · left; rfl
        · left; rfl

theorem followUpStep_lookup_ne (delayHours : Nat) (now : Int) (env : FollowUpEnv)
    (s : Store) (em em' : String) (data : LeadRecord) (h : em' ≠ em) :
    lookupStore (processFollowUpStep delayHours now env s em data).1 em' =
      lookupStore s em' := by
  rcases followUpStep_fst delayHours now env s em data with h1 | ⟨_, h1 | h1⟩ <;>
    rw [h1]
  · rw [updateLS_lookup_ne _ _ _ _ _ h]
  · rw [updateLS_lookup_ne _ _ _ _ _ h]

theorem followUpStep_actionsFor_ne (delayHours : Nat) (now : Int) (env : FollowUpEnv)
    (s : Store) (em em' : String) (data : LeadRecord) (h : em' ≠ em) :
    actionsFor em' (processFollowUpStep delayHours now env s em data).2 = [] := by
  have hne : ¬em = em' := fun hc => h hc.symm
  simp only [processFollowUpStep]
  repeat' split
  all_goals simp [actionsFor, actionEmail, hne]

theorem followUpStep_snd_congr (delayHours : Nat) (now : Int) (env : FollowUpEnv)
    (s₁ s₂ : Store) (em : String) (data : LeadRecord) :
    (processFollowUpStep delayHours now env s₁ em data).2 =
      (processFollowUpStep delayHours now env s₂ em data).2 := by
  simp only [processFollowUpStep]
  repeat' split
  all_goals rfl

theorem followUpStep_lookup_congr (delayHours : Nat) (now : Int) (env : FollowUpEnv)
    {s₁ s₂ : Store} (em : String) (data : LeadRecord)
    (h : lookupStore s₁ em = lookupStore s₂ em) :
    lookupStore (processFollowUpStep delayHours now env s₁ em data).1 em =
      lookupStore (processFollowUpStep delayHours now env s₂ em data).1 em := by
  simp only [processFollowUpStep]
  repeat' split
  all_goals first
    | exact h
    | exact updateLS_lookup_congr em _ _ h

theorem actionsFor_append (em : String) (l₁ l₂ : List Action) :
    actionsFor em (l₁ ++ l₂) = actionsFor em l₁ ++ actionsFor em l₂ :=
  List.filter_append _ _

/-! Decomposition of the Phase B pass: what it does to one tracked
record and to the actions concerning that lead. -/

theorem followUpsAux_untouched (delayHours : Nat) (now : Int)
    (envs : String → FollowUpEnv) (em : String) :
    ∀ (entries : List (String × LeadRecord)) (store : Store),
      em ∉ entries.map Prod.fst →
      lookupStore (processFollowUpsAux delayHours now envs store entries).1 em =
        lookupStore store em ∧
      actionsFor em (processFollowUpsAux delayHours now envs store entries).2 = [] := by
  intro entries
  induction entries with
  | nil => intro store _; simp [processFollowUpsAux, actionsFor]
  | cons p rest ih =>
    obtain ⟨e, d⟩ := p
    intro store hem
    simp only [List.map_cons, List.mem_cons, not_or] at hem
    obtain ⟨hne, hem'⟩ := hem
    have hrest := ih (processFollowUpStep delayHours now (envs e) store e d).1 hem'
    simp only [processFollowUpsAux]
    refine ⟨?_, ?_⟩
    · rw [hrest.1]
      exact followUpStep_lookup_ne delayHours now (envs e) store e em d hne
    · rw [actionsFor_append, hrest.2,
        followUpStep_actionsFor_ne delayHours now (envs e) store e em d hne]
      rfl

theorem followUpsAux_at (delayHours : Nat) (now : Int)
    (envs : String → FollowUpEnv) (em : String) (data : LeadRecord) :
    ∀ (entries : List (String × LeadRecord)) (store : Store),
      (em, data) ∈ entries → (entries.map Prod.fst).Nodup →
      lookupStore store em = some data →
      lookupStore (processFollowUpsAux delayHours now envs store entries).1 em =
        lookupStore (processFollowUpStep delayHours now (envs em) store em data).1 em ∧
      actionsFor em (processFollowUpsAux delayHours now envs store entries).2 =
        actionsFor em (processFollowUpStep delayHours now (envs em) store em data).2 := by
  intro entries
  induction entries with
  | nil => intro store hmem; cases hmem
  | cons p rest ih =>
    obtain ⟨e, d⟩ := p
    intro store hmem hnd hlk
    simp only [List.map_cons, List.nodup_cons] at hnd
    obtain ⟨hout, hnd'⟩ := hnd
    rcases List.mem_cons.mp hmem with hh | hh
    · have he : em = e := congrArg Prod.fst hh
      have hd : data = d := congrArg Prod.snd hh
      subst he; subst hd
      have hrest := followUpsAux_untouched delayHours now envs em rest
        (processFollowUpStep delayHours now (envs em) store em data).1 hout
      simp only [processFollowUpsAux]
      refine ⟨hrest.1, ?_⟩
      rw [actionsFor_append, hrest.2, List.append_nil]
    · have hne : em ≠ e := by
        intro hc
        subst hc
        exact hout (List.mem_map.mpr ⟨(em, data), hh, rfl⟩)
      have hlk1 : lookupStore (processFollowUpStep delayHours now (envs e) store e d).1 em =
          lookupStore store em :=
        followUpStep_lookup_ne delayHours now (envs e) store e em d hne
      have hrec := ih (processFollowUpStep delayHours now (envs e) store e d).1 hh hnd'
        (by rw [hlk1]; exact hlk)
      simp only [processFollowUpsAux]
      refine ⟨?_, ?_⟩
      · rw [hrec.1]
        exact followUpStep_lookup_congr delayHours now (envs em) em data (by rw [hlk1])
      · rw [actionsFor_append,
          followUpStep_actionsFor_ne delayHours now (envs e) store e em d hne,
          hrec.2, List.nil_append]
        rw [followUpStep_snd_congr delayHours now (envs em)
          (processFollowUpStep delayHours now (envs e) store e d).1 store em data]

/-- Run-level decomposition for Phase B: under distinct store keys, the
final record of a tracked lead and the actions concerning it are exactly
the effect of its own loop iteration. -/
theorem followUps_at (delayHours : Nat) (now : Int) (envs : String → FollowUpEnv)
    (store : Store) (em : String) (data : LeadRecord)
    (hmem : (em, data) ∈ store) (hnd : (store.map Prod.fst).Nodup) :
    lookupStore (processFollowUps delayHours now envs store).1 em =
      lookupStore (processFollowUpStep delayHours now (envs em) store em data).1 em ∧
    actionsFor em (processFollowUps delayHours now envs store).2 =
      actionsFor em (processFollowUpStep delayHours now (envs em) store em data).2 :=
  followUpsAux_at delayHours now envs em data store store hmem hnd
    (lookup_of_mem_nodup hmem hnd)

/-! Phase A loop preservation for non-pending records. -/

theorem newLeads_preserves (cfg : TemplateVars) (sendOk : String → Bool) (now : Int)
    (em : String) (r : LeadRecord) (s : String)
    (hs : r.status = some s) (hne : s ≠ "PENDING") :
    ∀ (leads : List Lead) (store : Store), lookupStore store em = some r →
      lookupStore (processNewLeads cfg sendOk now store leads).store em = some r ∧
      actionsFor em (processNewLeads cfg sendOk now store leads).log = [] := by
  intro leads
  induction leads with
  | nil => intro store hlk; exact ⟨hlk, rfl⟩
  | cons lead rest ih =>
    intro store hlk
    cases hem : lead.email with
    | none => simp only [processNewLeads, hem]; exact ⟨hlk, rfl⟩
    | some e =>
      simp only [processNewLeads, hem]
      by_cases hee : e = em
      · subst hee
        have hskip : processNewLeadStep cfg (sendOk e) now store e lead = (store, []) := by
          apply newLeadStep_skip
          rw [hlk]
          simpa [Option.getD, hs] using hne
        rw [hskip]
        have hrec := ih store hlk
        exact ⟨hrec.1, by rw [actionsFor_append, hrec.2]; rfl⟩
      · have hlk1 : lookupStore (processNewLeadStep cfg (sendOk e) now store e lead).1 em =
            some r := by
          rw [newLeadStep_lookup_ne cfg (sendOk e) now store e em lead
            (fun hc => hee hc.symm)]
          exact hlk
        have hrec := ih _ hlk1
        refine ⟨hrec.1, ?_⟩
        rw [actionsFor_append, hrec.2,
          newLeadStep_actionsFor_ne cfg (sendOk e) now store e em lead
            (fun hc => hee hc.symm)]
        rfl

/-! Forward-progress machinery for the lifecycle invariant. -/

theorem WFrec_empty : WFrec emptyRecord := by
  constructor
  · intro _; exact ⟨rfl, rfl, rfl⟩
  · intro hc; simp [emptyRecord] at hc

theorem forwardStep_rank {s t : Option String} (h : forwardStep s t) :
    rank s ≤ rank t := by
  rcases h with h | ⟨h1, h2⟩ | ⟨h1, h2⟩ | ⟨h1, h2⟩
  · rw [h]
  · rcases h1 with h1 | h1 <;> rw [h1, h2] <;> decide
  · rcases h2 with h2 | h2 <;> rw [h1, h2] <;> decide
  · rw [h1, h2]; decide

theorem applyOp_forward (store : Store) (op : Op) (em : String) (h : StoreWF store) :
    StoreWF (applyOp store op) ∧
    forwardStep (statusOf store em) (statusOf (applyOp store op) em) ∧
    (initialTsOf store em ≠ none →
      initialTsOf (applyOp store op) em = initialTsOf store em) ∧
    (followTsOf store em ≠ none →
      followTsOf (applyOp store op) em = followTsOf store em) ∧
    (repliedTsOf store em ≠ none →
      repliedTsOf (applyOp store op) em = repliedTsOf store em) := by
  cases op with
  | phaseA cfg sendOk now email lead =>
    simp only [applyOp]
    rcases newLeadStep_fst cfg sendOk now store email lead with h1 | ⟨hpend, h1⟩
    · rw [h1]
      exact ⟨h, Or.inl rfl, fun _ => rfl, fun _ => rfl, fun _ => rfl⟩
    · rw [h1, updateLS_initial]
      have hr0wf : WFrec ((lookupStore store email).getD emptyRecord) := by
        cases hl : lookupStore store email with
        | none => simpa using WFrec_empty
        | some r0 => simpa using h _ (lookupStore_mem hl)
      have hpend' : ((lookupStore store email).getD emptyRecord).status = none ∨
          ((lookupStore store email).getD emptyRecord).status = some "PENDING" := by
        cases hst : ((lookupStore store email).getD emptyRecord).status with
        | none => exact Or.inl rfl
        | some v =>
          right
          rw [hst] at hpend
          simp only [Option.getD_some] at hpend
          rw [hpend]
      have hts0 := hr0wf.1 hpend'
      refine ⟨?_, ?_, ?_, ?_, ?_⟩
      · apply StoreWF_insert h
        constructor
        · intro hc; rcases hc with hc | hc <;> simp at hc
        · intro _
          exact ⟨hts0.2.1, hts0.2.2⟩
      · by_cases hem : em = email
        · subst hem
          right; left
          refine ⟨?_, by simp [statusOf, lookup_insert_self]⟩
          cases hl : lookupStore store em with
          | none => left; simp [statusOf, hl]
          | some r0 =>
            rw [hl] at hpend'
            simp only [Option.getD_some] at hpend'
            rcases hpend' with hp | hp
            · left; simp [statusOf, hl, hp]
            · right; simp [statusOf, hl, hp]
        · left
          simp [statusOf, lookup_insert_ne _ _ _ _ hem]
      · intro hne
        by_cases hem : em = email
        · subst hem
          have hbefore : initialTsOf store em = none := by
            cases hl : lookupStore store em with
            | none => simp [initialTsOf, hl]
            | some r0 =>
              have hr := hts0.1
              rw [hl] at hr
              simp only [Option.getD_some] at hr
              simp [initialTsOf, hl, hr]
          exact absurd hbefore hne
        · simp [initialTsOf, lookup_insert_ne _ _ _ _ hem]
      · intro _
        by_cases hem : em = email
        · subst hem
          cases hl : lookupStore store em with
          | none => simp [followTsOf, lookup_insert_self, hl, emptyRecord]
          | some r0 => simp [followTsOf, lookup_insert_self, hl]
        · simp [followTsOf, lookup_insert_ne _ _ _ _ hem]
      · intro _
        by_cases hem : em = email
        · subst hem
          cases hl : lookupStore store em with
          | none => simp [repliedTsOf, lookup_insert_self, hl, emptyRecord]
          | some r0 => simp [repliedTsOf, lookup_insert_self, hl]
        · simp [repliedTsOf, lookup_insert_ne _ _ _ _ hem]
  | phaseB env delayHours now email =>
    cases hl : lookupStore store email with
    | none =>
      have hred : applyOp store (Op.phaseB env delayHours now email) = store := by
        simp only [applyOp, hl]
      rw [hred]
      exact ⟨h, Or.inl rfl, fun _ => rfl, fun _ => rfl, fun _ => rfl⟩
    | some data =>
      have hred : applyOp store (Op.phaseB env delayHours now email) =
          (processFollowUpStep delayHours now env store email data).1 := by
        simp only [applyOp, hl]
      rw [hred]
      have hwf : WFrec data := h _ (lookupStore_mem hl)
      rcases followUpStep_fst delayHours now env store email data with h1 | ⟨hst, h1 | h1⟩
      · rw [h1]
        exact ⟨h, Or.inl rfl, fun _ => rfl, fun _ => rfl, fun _ => rfl⟩
      · have hts := hwf.2 hst
        rw [h1, updateLS_replied, hl]
        simp only [Option.getD_some]
        refine ⟨?_, ?_, ?_, ?_, ?_⟩
        · apply StoreWF_insert h
          constructor
          · intro hc; rcases hc with hc | hc <;> simp at hc
          · intro hc; simp at hc
        · by_cases hem : em = email
          · subst hem
            right; right; left
            refine ⟨by simp [statusOf, hl, hst], Or.inr ?_⟩
            simp [statusOf, lookup_insert_self]
          · left
            simp [statusOf, lookup_insert_ne _ _ _ _ hem]
        · intro _
          by_cases hem : em = email
          · subst hem
            simp [initialTsOf, lookup_insert_self, hl]
          · simp [initialTsOf, lookup_insert_ne _ _ _ _ hem]
        · intro _
          by_cases hem : em = email
          · subst hem
            simp [followTsOf, lookup_insert_self, hl]
          · simp [followTsOf, lookup_insert_ne _ _ _ _ hem]
        · intro hne
          by_cases hem : em = email
          · subst hem
            exact absurd (by simp [repliedTsOf, hl, hts.2]) hne
          · simp [repliedTsOf, lookup_insert_ne _ _ _ _ hem]
      · have hts := hwf.2 hst
        rw [h1, updateLS_followUp, hl]
        simp only [Option.getD_some]
        refine ⟨?_, ?_, ?_, ?_, ?_⟩
        · apply StoreWF_insert h
          constructor
          · intro hc; rcases hc with hc | hc <;> simp at hc
          · intro hc; simp at hc
        · by_cases hem : em = email
          · subst hem
            right; right; left
            refine ⟨by simp [statusOf, hl, hst], Or.inl ?_⟩
            simp [statusOf, lookup_insert_self]
          · left
            simp [statusOf, lookup_insert_ne _ _ _ _ hem]
        · intro _
          by_cases hem : em = email
          · subst hem
            simp [initialTsOf, lookup_insert_self, hl]
          · simp [initialTsOf, lookup_insert_ne _ _ _ _ hem]
        · intro hne
          by_cases hem : em = email
          · subst hem
            exact absurd (by simp [followTsOf, hl, hts.1]) hne
          · simp [followTsOf, lookup_insert_ne _ _ _ _ hem]
        · intro _
          by_cases hem : em = email
          · subst hem
            simp [repliedTsOf, lookup_insert_self, hl]
          · simp [repliedTsOf, lookup_insert_ne _ _ _ _ hem]

theorem applyOps_forward (em : String) :
    ∀ (ops : List Op) (store : Store), StoreWF store →
      StoreWF (applyOps store ops) ∧
      rank (statusOf store em) ≤ rank (statusOf (applyOps store ops) em) ∧
      (initialTsOf store em ≠ none →
        initialTsOf (applyOps store ops) em = initialTsOf store em) ∧
      (followTsOf store em ≠ none →
        followTsOf (applyOps store ops) em = followTsOf store em) ∧
      (repliedTsOf store em ≠ none →
        repliedTsOf (applyOps store ops) em = repliedTsOf store em) := by
  intro ops
  induction ops with
  | nil => intro store h; exact ⟨h, le_refl _, fun _ => rfl, fun _ => rfl, fun _ => rfl⟩
  | cons op rest ih =>
    intro store h
    obtain ⟨hwf1, hstep, hi1, hf1, hr1⟩ := applyOp_forward store op em h
    obtain ⟨hwf2, hrank2, hi2, hf2, hr2⟩ := ih (applyOp store op) hwf1
    have happ : applyOps store (op :: rest) = applyOps (applyOp store op) rest := rfl
    rw [happ]
    refine ⟨hwf2, le_trans (forwardStep_rank hstep) hrank2, ?_, ?_, ?_⟩
    · intro hne
      have h1 := hi1 hne
      rw [hi2 (by rw [h1]; exact hne), h1]
    · intro hne
      have h1 := hf1 hne
      rw [hf2 (by rw [h1]; exact hne), h1]
    · intro hne
      have h1 := hr1 hne
      rw [hr2 (by rw [h1]; exact hne), h1]

/-! Claim theorems. -/

/-- C10: check_for_reply returns false, and does not raise, on a
malformed after-timestamp and on any failure of the inbox search, so a
search outage is indistinguishable from the absence of a reply; and
should_send_follow_up likewise returns false on a malformed timestamp. -/
theorem reply_check_never_raises (g : Bool) (ts : Timestamp)
    (res : Except Unit Nat) (now : Int) (delayHours : Nat) :
    check_for_reply g Timestamp.malformed res = false ∧
    check_for_reply g ts (Except.error ()) = false ∧
    check_for_reply g ts (Except.error ()) = check_for_reply g ts (Except.ok 0) ∧
    should_send_follow_up delayHours now Timestamp.malformed = false := by
  refine ⟨?_, ?_, ?_, rfl⟩
  · cases g <;> rfl
  · cases g <;> cases ts <;> rfl
  · cases g <;> cases ts <;> rfl

/-- C8: a record in INITIAL_EMAIL_SENT with no initial_sent_timestamp
is skipped by Phase B: the record is left unchanged and no action is
taken for that lead; the run does not abort (the pass is total). -/
theorem missing_timestamp_skip (delayHours : Nat) (now : Int)
    (envs : String → FollowUpEnv) (store : Store) (em : String) (data : LeadRecord)
    (hnd : (store.map Prod.fst).Nodup) (hmem : (em, data) ∈ store)
    (hst : data.status = some "INITIAL_EMAIL_SENT")
    (hts : data.initial_sent_timestamp = none) :
    lookupStore (processFollowUps delayHours now envs store).1 em = some data ∧
    actionsFor em (processFollowUps delayHours now envs store).2 = [] := by
  obtain ⟨h1, h2⟩ := followUps_at delayHours now envs store em data hmem hnd
  have hstep : processFollowUpStep delayHours now (envs em) store em data =
      (store, []) := by
    simp [processFollowUpStep, hst, hts]
  rw [h1, hstep, h2, hstep]
  exact ⟨lookup_of_mem_nodup hmem hnd, rfl⟩

/-- C2: for a tracked INITIAL_EMAIL_SENT record whose reply check
returns true, Phase B leaves the record in REPLIED with the reply
timestamp set, and no follow-up is composed or sent for that lead in
the run, regardless of how much time has elapsed. -/
theorem reply_precedence (delayHours : Nat) (now : Int)
    (envs : String → FollowUpEnv) (store : Store) (em : String)
    (data : LeadRecord) (ts : Timestamp)
    (hnd : (store.map Prod.fst).Nodup) (hmem : (em, data) ∈ store)
    (hst : data.status = some "INITIAL_EMAIL_SENT")
    (hts : data.initial_sent_timestamp = some ts)
    (hr : check_for_reply (envs em).gmailAvailable ts (envs em).replySearch = true) :
    lookupStore (processFollowUps delayHours now envs store).1 em =
      some { data with
        status := some "REPLIED"
        replied_timestamp := some (Timestamp.valid now) } ∧
    composesOrSendsFollowUpTo em (processFollowUps delayHours now envs store).2 = false := by
  obtain ⟨h1, h2⟩ := followUps_at delayHours now envs store em data hmem hnd
  have hlk : lookupStore store em = some data := lookup_of_mem_nodup hmem hnd
  have hstep : processFollowUpStep delayHours now (envs em) store em data =
      (updateLeadStatus store em "REPLIED" (some (Timestamp.valid now)), []) := by
    simp [processFollowUpStep, hst, hts, hr]
  constructor
  · rw [h1, hstep, updateLS_replied, hlk]
    simp only [Option.getD_some]
    exact lookup_insert_self store em _
  · rw [composesOrSendsFollowUpTo, h2, hstep]
    simp [actionsFor]

/-- C1: for a tracked INITIAL_EMAIL_SENT record with a valid
timestamp whose reply check returns false, and whose lead row, draft
and guard are available, Phase B attempts a follow-up send exactly when
now is at or past sent plus the configured delay: never strictly
before, and exactly at the boundary it sends. -/
theorem followup_time_gate (delayHours : Nat) (now sent : Int)
    (envs : String → FollowUpEnv) (store : Store) (em : String)
    (data : LeadRecord) (d : EmailDraft)
    (hnd : (store.map Prod.fst).Nodup) (hmem : (em, data) ∈ store)
    (hst : data.status = some "INITIAL_EMAIL_SENT")
    (hts : data.initial_sent_timestamp = some (Timestamp.valid sent))
    (hnr : check_for_reply (envs em).gmailAvailable (Timestamp.valid sent)
      (envs em).replySearch = false)
    (hlf : (envs em).leadFound = true)
    (hd : (envs em).draft = some d)
    (hsub : d.subject ≠ "") (hbody : d.body ≠ "") :
    (sendsFollowUpTo em (processFollowUps delayHours now envs store).2 = true ↔
      sent + (delayHours : Int) * 3600 ≤ now) ∧
    (now < sent + (delayHours : Int) * 3600 →
      sendsFollowUpTo em (processFollowUps delayHours now envs store).2 = false) ∧
    (now = sent + (delayHours : Int) * 3600 →
      sendsFollowUpTo em (processFollowUps delayHours now envs store).2 = true) := by
  have hlog : (processFollowUpStep delayHours now (envs em) store em data).2 =
      if should_send_follow_up delayHours now (Timestamp.valid sent) = true then
        [Action.composeFollowUp em, Action.sendFollowUp em d.subject d.body]
      else [] := by
    cases hss : should_send_follow_up delayHours now (Timestamp.valid sent) with
    | false => simp [processFollowUpStep, hst, hts, hnr, hss]
    | true =>
      cases hso : (envs em).sendOk with
      | false => simp [processFollowUpStep, hst, hts, hnr, hss, hlf, hd, hsub, hbody, hso]
      | true => simp [processFollowUpStep, hst, hts, hnr, hss, hlf, hd, hsub, hbody, hso]
  have hkey : sendsFollowUpTo em (processFollowUps delayHours now envs store).2 =
      should_send_follow_up delayHours now (Timestamp.valid sent) := by
    rw [sendsFollowUpTo, (followUps_at delayHours now envs store em data hmem hnd).2, hlog]
    cases hss : should_send_follow_up delayHours now (Timestamp.valid sent) with
    | false => simp [actionsFor]
    | true => simp [actionsFor, actionEmail, isFollowUpSend]
  refine ⟨?_, ?_, ?_⟩
  · rw [hkey]
    simp [should_send_follow_up, decide_eq_true_eq]
  · intro hlt
    rw [hkey]
    simp only [should_send_follow_up]
    exact decide_eq_false (not_le.mpr hlt)
  · intro heq
    rw [hkey]
    simp only [should_send_follow_up]
    exact decide_eq_true heq.ge

/-- C4: a fetched lead whose stored record is in any status other than
PENDING is left entirely unchanged by the whole Phase A pass, with no
email composed or sent for it: re-running Phase A is idempotent. -/
theorem phase_a_skips_nonpending (cfg : TemplateVars) (sendOk : String → Bool)
    (now : Int) (store : Store) (leads : List Lead) (em : String)
    (r : LeadRecord) (s : String)
    (hr : lookupStore store em = some r) (hs : r.status = some s)
    (hne : s ≠ "PENDING") :
    lookupStore (processNewLeads cfg sendOk now store leads).store em = some r ∧
    actionsFor em (processNewLeads cfg sendOk now store leads).log = [] :=
  newLeads_preserves cfg sendOk now em r s hs hne leads store hr

/-- One Phase A iteration on a PENDING lead with composition inputs
present and a successful send: the record becomes exactly
INITIAL_EMAIL_SENT stamped with the current send time. -/
theorem newLeadStep_initial (cfg : TemplateVars) (sendOk : Bool) (now : Int)
    (store : Store) (email f c : String) (lead : Lead)
    (habs : lookupStore store email = none)
    (hf : lead.firstName = some f) (hc : lead.company = some c)
    (hsend : sendOk = true) :
    lookupStore (processNewLeadStep cfg sendOk now store email lead).1 email =
      some { status := some "INITIAL_EMAIL_SENT",
             initial_sent_timestamp := some (Timestamp.valid now),
             follow_up_sent_timestamp := none, replied_timestamp := none } := by
  have hsubne : (draft_initial_email cfg lead).subject ≠ "" := by
    simp only [draft_initial_email, hf, hc]
    intro hemp
    have hlen := congrArg String.length hemp
    rw [String.length_append] at hlen
    have hpos : 0 < ("A Partnership in Storytelling for ").length := by decide
    have hz : ("" : String).length = 0 := rfl
    omega
  have hbodyne : (draft_initial_email cfg lead).body ≠ "" := by
    simp only [draft_initial_email, hf, hc]
    intro hemp
    have hlen := congrArg String.length hemp
    simp only [initialBody, String.length_append] at hlen
    have hpos : 0 < ("Hi ").length := by decide
    have hz : ("" : String).length = 0 := rfl
    omega
  have hstep : (processNewLeadStep cfg sendOk now store email lead).1 =
      updateLeadStatus store email "INITIAL_EMAIL_SENT" (some (Timestamp.valid now)) := by
    simp only [processNewLeadStep, habs, hsend, Option.getD_none, emptyRecord, if_true]
    rw [if_pos ⟨hsubne, hbodyne⟩]
  rw [hstep, updateLS_initial, habs]
  exact lookup_insert_self store email _

/-- C3: a fetched lead that is PENDING (absent from the store), whose
composition inputs are present and whose send succeeds, ends the whole
Phase A pass with exactly the record INITIAL_EMAIL_SENT carrying the
current send time and no follow-up or reply timestamp, the recorded
time no later than now; the leads before it are well keyed with other
addresses (otherwise the pass would abort or claim the address first),
the leads after it are arbitrary. -/
theorem initial_send_transition (cfg : TemplateVars) (sendOk : String → Bool)
    (now : Int) (email f c : String) (lead : Lead) (pre rest : List Lead)
    (store : Store)
    (hemail : lead.email = some email)
    (hf : lead.firstName = some f) (hc : lead.company = some c)
    (hsend : sendOk email = true)
    (habs : lookupStore store email = none)
    (hpre : ∀ l ∈ pre, l.email ≠ none ∧ l.email ≠ some email) :
    lookupStore (processNewLeads cfg sendOk now store (pre ++ lead :: rest)).store email =
      some { status := some "INITIAL_EMAIL_SENT",
             initial_sent_timestamp := some (Timestamp.valid now),
             follow_up_sent_timestamp := none, replied_timestamp := none } ∧
    (∃ t : Int,
      initialTsOf (processNewLeads cfg sendOk now store (pre ++ lead :: rest)).store email =
        some (Timestamp.valid t) ∧ t ≤ now) := by
  revert habs hpre
  induction pre generalizing store with
  | nil =>
    intro habs _
    simp only [List.nil_append, processNewLeads, hemail]
    have hstep := newLeadStep_initial cfg (sendOk email) now store email f c lead
      habs hf hc hsend
    have hpres := newLeads_preserves cfg sendOk now email
      { status := some "INITIAL_EMAIL_SENT",
        initial_sent_timestamp := some (Timestamp.valid now),
        follow_up_sent_timestamp := none, replied_timestamp := none }
      "INITIAL_EMAIL_SENT" rfl (by decide) rest
      (processNewLeadStep cfg (sendOk email) now store email lead).1 hstep
    refine ⟨hpres.1, now, ?_, le_refl now⟩
    rw [initialTsOf, hpres.1]
    rfl
  | cons l pre' ih =>
    intro habs hpre
    obtain ⟨hl1, hl2⟩ := hpre l (List.mem_cons_self _ _)
    cases he : l.email with
    | none => exact absurd he hl1
    | some e =>
      have hne : email ≠ e := fun hc' => hl2 (by rw [he, hc'])
      simp only [List.cons_append, processNewLeads, he]
      have habs1 : lookupStore (processNewLeadStep cfg (sendOk e) now store e l).1 email =
          none := by
        rw [newLeadStep_lookup_ne cfg (sendOk e) now store e email l hne]
        exact habs
      exact ih (processNewLeadStep cfg (sendOk e) now store e l).1 habs1
        (fun q hq => hpre q (List.mem_cons_of_mem _ hq))

/-- C5: over any sequence of Reconciler operations on a sane store,
every record only moves forward along the lifecycle (a single operation
takes a legal forward edge, a sequence never lowers the rank), sanity
is preserved, and each timestamp field, once set, keeps its value. -/
theorem lifecycle_forward_progress (op : Op) (ops : List Op) (store : Store)
    (em : String) (h : StoreWF store) :
    forwardStep (statusOf store em) (statusOf (applyOp store op) em) ∧
    StoreWF (applyOps store ops) ∧
    rank (statusOf store em) ≤ rank (statusOf (applyOps store ops) em) ∧
    (initialTsOf store em ≠ none →
      initialTsOf (applyOps store ops) em = initialTsOf store em) ∧
    (followTsOf store em ≠ none →
      followTsOf (applyOps store ops) em = followTsOf store em) ∧
    (repliedTsOf store em ≠ none →
      repliedTsOf (applyOps store ops) em = repliedTsOf store em) := by
  obtain ⟨hwf, hrank, hi, hf, hrp⟩ := applyOps_forward em ops store h
  exact ⟨(applyOp_forward store op em h).2.1, hwf, hrank, hi, hf, hrp⟩

/-- C6: Phase A evaluated at a PENDING lead with no company field: the
crafting agent returns the truthy sentinel draft, the draft-failure
guard passes, the sentinel text is sent to the lead, and on send
success the record becomes INITIAL_EMAIL_SENT instead of staying
PENDING for retry. -/
theorem error_draft_sent_eval :
    processNewLeadStep { your_name := "N", your_title := "T", portfolio_link := "P" }
        true 0 [] "ana@x.com" { firstName := some "Ana", email := some "ana@x.com" } =
      ([("ana@x.com", { status := some "INITIAL_EMAIL_SENT"
                        initial_sent_timestamp := some (Timestamp.valid 0) })],
       [Action.composeInitial "ana@x.com",
        Action.sendInitial "ana@x.com" "Error" "Error drafting email"]) := by
  decide

/-- C7 counterexample: a lead record with no email key makes Phase A
abort at once: the run stops, the following PENDING lead is never
tracked and no action is taken for it, refuting per-lead containment. -/
theorem bad_lead_aborts_run :
    ((processNewLeads { your_name := "N", your_title := "T", portfolio_link := "P" }
        (fun _ => true) 0 []
        [{ firstName := some "Bob", company := some "BCo" },
         { firstName := some "Cara", email := some "cara@x.com", company := some "CCo" }]).aborted
      = true) ∧
    lookupStore (processNewLeads { your_name := "N", your_title := "T", portfolio_link := "P" }
        (fun _ => true) 0 []
        [{ firstName := some "Bob", company := some "BCo" },
         { firstName := some "Cara", email := some "cara@x.com", company := some "CCo" }]).store
      "cara@x.com" = none ∧
    actionsFor "cara@x.com"
      (processNewLeads { your_name := "N", your_title := "T", portfolio_link := "P" }
        (fun _ => true) 0 []
        [{ firstName := some "Bob", company := some "BCo" },
         { firstName := some "Cara", email := some "cara@x.com", company := some "CCo" }]).log
      = [] :=
  ⟨rfl, rfl, rfl⟩

/-- C7 amended: an unexpected exception in the per-lead loop body (a
lead with no email key) is not caught per-lead: Phase A aborts there,
keeping exactly the store and log reached by the leads already
processed (which run_workflow saves before re-raising), while leads
whose records are well keyed never abort the pass, whatever the
composition and send outcomes. -/
theorem uncaught_exception_aborts_rest (cfg : TemplateVars)
    (sendOk : String → Bool) (now : Int) (store : Store)
    (pre : List Lead) (lead : Lead) (rest : List Lead)
    (hbad : lead.email = none)
    (hpre : ∀ l ∈ pre, l.email ≠ none) :
    (processNewLeads cfg sendOk now store (pre ++ lead :: rest)).aborted = true ∧
    (processNewLeads cfg sendOk now store (pre ++ lead :: rest)).store =
      (processNewLeads cfg sendOk now store pre).store ∧
    (processNewLeads cfg sendOk now store (pre ++ lead :: rest)).log =
      (processNewLeads cfg sendOk now store pre).log ∧
    (processNewLeads cfg sendOk now store pre).aborted = false := by
  revert hpre
  induction pre generalizing store with
  | nil =>
    intro _
    simp only [List.nil_append, processNewLeads, hbad]
    exact ⟨trivial, trivial, trivial, trivial⟩
  | cons l pre' ih =>
    intro hpre
    cases he : l.email with
    | none => exact absurd he (hpre l (List.mem_cons_self _ _))
    | some e =>
      simp only [List.cons_append, processNewLeads, he]
      obtain ⟨h1, h2, h3, h4⟩ :=
        ih (processNewLeadStep cfg (sendOk e) now store e l).1
          (fun l' hl' => hpre l' (List.mem_cons_of_mem _ hl'))
      exact ⟨h1, h2,
        congrArg (fun L => (processNewLeadStep cfg (sendOk e) now store e l).2 ++ L) h3, h4⟩

/-! Persistence round trip (C9). -/

theorem lookupField_none_of_keys (fields : JsonFields) (k : String)
    (h : ∀ p ∈ fields, p.1 ≠ k) : lookupField fields k = none := by
  induction fields with
  | nil => rfl
  | cons p t ih =>
    obtain ⟨q, v⟩ := p
    simp only [lookupField]
    rw [if_neg (h (q, v) (List.mem_cons_self _ _))]
    exact ih (fun q hq => h q (List.mem_cons_of_mem _ hq))

theorem save_lookup_status (r : StoredRecord) :
    lookupField (saveRecord r) "status" = r.status := by
  obtain ⟨a, b, c, d⟩ := r
  cases a <;> cases b <;> cases c <;> cases d <;> simp [saveRecord, lookupField]

theorem save_lookup_initial (r : StoredRecord) :
    lookupField (saveRecord r) "initial_sent_timestamp" =
      r.initial_sent_timestamp := by
  obtain ⟨a, b, c, d⟩ := r
  cases a <;> cases b <;> cases c <;> cases d <;> simp [saveRecord, lookupField]

theorem save_lookup_follow (r : StoredRecord) :
    lookupField (saveRecord r) "follow_up_sent_timestamp" =
      r.follow_up_sent_timestamp := by
  obtain ⟨a, b, c, d⟩ := r
  cases a <;> cases b <;> cases c <;> cases d <;> simp [saveRecord, lookupField]

theorem save_lookup_replied (r : StoredRecord) :
    lookupField (saveRecord r) "replied_timestamp" = r.replied_timestamp := by
  obtain ⟨a, b, c, d⟩ := r
  cases a <;> cases b <;> cases c <;> cases d <;> simp [saveRecord, lookupField]

theorem save_lookup_other (r : StoredRecord) (k : String)
    (h1 : k ≠ "status") (h2 : k ≠ "initial_sent_timestamp")
    (h3 : k ≠ "follow_up_sent_timestamp") (h4 : k ≠ "replied_timestamp") :
    lookupField (saveRecord r) k = none := by
  obtain ⟨a, b, c, d⟩ := r
  cases a <;> cases b <;> cases c <;> cases d <;>
    simp [saveRecord, lookupField, Ne.symm h1, Ne.symm h2, Ne.symm h3, Ne.symm h4]

theorem roundtrip_record (fields : JsonFields) (k : String)
    (h : RecordFieldsWF fields) :
    lookupField (saveRecord (loadRecord fields)) k = lookupField fields k := by
  by_cases h1 : k = "status"
  · subst h1
    rw [save_lookup_status]
    rfl
  · by_cases h2 : k = "initial_sent_timestamp"
    · subst h2
      rw [save_lookup_initial]
      rfl
    · by_cases h3 : k = "follow_up_sent_timestamp"
      · subst h3
        rw [save_lookup_follow]
        rfl
      · by_cases h4 : k = "replied_timestamp"
        · subst h4
          rw [save_lookup_replied]
          rfl
        · rw [save_lookup_other _ _ h1 h2 h3 h4]
          symm
          apply lookupField_none_of_keys
          intro p hp hpk
          have hmem := h.2 p hp
          rw [hpk] at hmem
          simp only [recordKeys, List.mem_cons, List.mem_singleton] at hmem
          rcases hmem with hm | hm | hm | hm
          · exact h1 hm
          · exact h2 hm
          · exact h3 hm
          · simp at hm
            exact h4 hm

theorem fieldOf_roundtrip (em k : String) :
    ∀ (x : JsonStore), JsonStoreWF x →
      fieldOf (saveState (loadState x)) em k = fieldOf x em k := by
  intro x
  induction x with
  | nil => intro _; rfl
  | cons p t ih =>
    obtain ⟨e, fields⟩ := p
    intro h
    have hwf : RecordFieldsWF fields := h _ (List.mem_cons_self _ _)
    simp only [saveState, loadState, List.map_cons, fieldOf, lookupJson]
    by_cases he : e = em
    · rw [if_pos he, if_pos he]
      simp only [Option.some_bind]
      exact roundtrip_record fields k hwf
    · rw [if_neg he, if_neg he]
      exact ih (fun q hq => h q (List.mem_cons_of_mem _ hq))

/-- C9: saving the loaded form of a well-formed persisted mapping
reproduces it field for field: the tracked emails are unchanged, and
every lead and field key reads back to exactly the original value, with
nothing added or dropped. -/
theorem state_roundtrip (x : JsonStore) (em k : String) (h : JsonStoreWF x) :
    (saveState (loadState x)).map Prod.fst = x.map Prod.fst ∧
    fieldOf (saveState (loadState x)) em k = fieldOf x em k := by
  refine ⟨?_, fieldOf_roundtrip em k x h⟩
  simp [saveState, loadState, List.map_map]

/-! Witness instantiations. -/

/-- Witness for C1 at the exact boundary: delay 48 hours, sent at 0,
now at 172800 seconds, no reply found: the follow-up send is attempted. -/
theorem followup_time_gate_witness :
    (([("a@x.com", { status := some "INITIAL_EMAIL_SENT"
                     initial_sent_timestamp := some (Timestamp.valid 0) })] : Store).map
      Prod.fst).Nodup ∧
    sendsFollowUpTo "a@x.com"
      (processFollowUps 48 172800
        (fun _ => { gmailAvailable := true
                    replySearch := Except.ok 0
                    leadFound := true
                    draft := some { subject := "Re: X", body := "b" }
                    sendOk := true })
        [("a@x.com", { status := some "INITIAL_EMAIL_SENT"
                       initial_sent_timestamp := some (Timestamp.valid 0) })]).2 = true :=
  ⟨by decide,
   (followup_time_gate 48 172800 0
      (fun _ => { gmailAvailable := true
                  replySearch := Except.ok 0
                  leadFound := true
                  draft := some { subject := "Re: X", body := "b" }
                  sendOk := true })
      [("a@x.com", { status := some "INITIAL_EMAIL_SENT"
                     initial_sent_timestamp := some (Timestamp.valid 0) })]
      "a@x.com"
      { status := some "INITIAL_EMAIL_SENT"
        initial_sent_timestamp := some (Timestamp.valid 0) }
      { subject := "Re: X", body := "b" }
      (by decide) (by decide) rfl rfl rfl rfl rfl (by decide) (by decide)).2.2
    (by decide)⟩

/-- Witness for C2: a reply found at once forces REPLIED and no
follow-up action for the lead, though the delay has long passed. -/
theorem reply_precedence_witness :
    (([("a@x.com", { status := some "INITIAL_EMAIL_SENT"
                     initial_sent_timestamp := some (Timestamp.valid 0) })] : Store).map
      Prod.fst).Nodup ∧
    composesOrSendsFollowUpTo "a@x.com"
      (processFollowUps 48 1000000
        (fun _ => { gmailAvailable := true
                    replySearch := Except.ok 1
                    leadFound := true
                    draft := some { subject := "Re: X", body := "b" }
                    sendOk := true })
        [("a@x.com", { status := some "INITIAL_EMAIL_SENT"
                       initial_sent_timestamp := some (Timestamp.valid 0) })]).2 = false :=
  ⟨by decide,
   (reply_precedence 48 1000000
      (fun _ => { gmailAvailable := true
                  replySearch := Except.ok 1
                  leadFound := true
                  draft := some { subject := "Re: X", body := "b" }
                  sendOk := true })
      [("a@x.com", { status := some "INITIAL_EMAIL_SENT"
                     initial_sent_timestamp := some (Timestamp.valid 0) })]
      "a@x.com"
      { status := some "INITIAL_EMAIL_SENT"
        initial_sent_timestamp := some (Timestamp.valid 0) }
      (Timestamp.valid 0)
      (by decide) (by decide) rfl rfl rfl).2⟩

/-- Witness for C3: the Ana lead, pending and well formed, processed in
the middle of a three-lead Phase A pass, ends the pass as
INITIAL_EMAIL_SENT stamped with the current time. -/
theorem initial_send_transition_witness :
    lookupStore ([] : Store) "ana@x.com" = none ∧
    lookupStore (processNewLeads { your_name := "N", your_title := "T", portfolio_link := "P" }
        (fun _ => true) 5 []
        ([{ firstName := some "Zed", email := some "z@x.com", company := some "ZCo" }] ++
          { firstName := some "Ana", email := some "ana@x.com", company := some "Acme" } ::
          [{ firstName := some "Yan", email := some "y@x.com", company := some "YCo" }])).store
      "ana@x.com" =
      some { status := some "INITIAL_EMAIL_SENT"
             initial_sent_timestamp := some (Timestamp.valid 5)
             follow_up_sent_timestamp := none
             replied_timestamp := none } :=
  ⟨rfl,
   (initial_send_transition { your_name := "N", your_title := "T", portfolio_link := "P" }
      (fun _ => true) 5 "ana@x.com" "Ana" "Acme"
      { firstName := some "Ana", email := some "ana@x.com", company := some "Acme" }
      [{ firstName := some "Zed", email := some "z@x.com", company := some "ZCo" }]
      [{ firstName := some "Yan", email := some "y@x.com", company := some "YCo" }]
      [] rfl rfl rfl rfl rfl (by decide)).1⟩

/-- Witness for C4: a REPLIED record is untouched by a Phase A pass
over a fetched lead with the same address. -/
theorem phase_a_skips_nonpending_witness :
    lookupStore ([("a@x.com", { status := some "REPLIED"
                                replied_timestamp := some (Timestamp.valid 1) })] : Store)
      "a@x.com" =
      some { status := some "REPLIED", replied_timestamp := some (Timestamp.valid 1) } ∧
    lookupStore (processNewLeads { your_name := "N", your_title := "T", portfolio_link := "P" }
        (fun _ => true) 7
        [("a@x.com", { status := some "REPLIED"
                       replied_timestamp := some (Timestamp.valid 1) })]
        [{ firstName := some "Ana", email := some "a@x.com", company := some "Acme" }]).store
      "a@x.com" =
      some { status := some "REPLIED", replied_timestamp := some (Timestamp.valid 1) } :=
  ⟨rfl,
   (phase_a_skips_nonpending { your_name := "N", your_title := "T", portfolio_link := "P" }
      (fun _ => true) 7
      [("a@x.com", { status := some "REPLIED"
                     replied_timestamp := some (Timestamp.valid 1) })]
      [{ firstName := some "Ana", email := some "a@x.com", company := some "Acme" }]
      "a@x.com"
      { status := some "REPLIED", replied_timestamp := some (Timestamp.valid 1) }
      "REPLIED" rfl rfl (by decide)).1⟩

/-- Witness for C5: one Phase B reply transition on a sane store never
lowers the rank of the record. -/
theorem lifecycle_forward_progress_witness :
    rank (statusOf [("a@x.com", { status := some "INITIAL_EMAIL_SENT"
                                  initial_sent_timestamp := some (Timestamp.valid 0) })]
        "a@x.com") ≤
      rank (statusOf
        (applyOps [("a@x.com", { status := some "INITIAL_EMAIL_SENT"
                                 initial_sent_timestamp := some (Timestamp.valid 0) })]
          [Op.phaseB { gmailAvailable := true
                       replySearch := Except.ok 1
                       leadFound := true
                       draft := none
                       sendOk := true } 48 172800 "a@x.com"])
        "a@x.com") :=
  (lifecycle_forward_progress
    (Op.phaseB { gmailAvailable := true
                 replySearch := Except.ok 1
                 leadFound := true
                 draft := none
                 sendOk := true } 48 172800 "a@x.com")
    [Op.phaseB { gmailAvailable := true
                 replySearch := Except.ok 1
                 leadFound := true
                 draft := none
                 sendOk := true } 48 172800 "a@x.com"]
    [("a@x.com", { status := some "INITIAL_EMAIL_SENT"
                   initial_sent_timestamp := some (Timestamp.valid 0) })]
    "a@x.com" (by decide)).2.2.1

/-- Witness for C7 as amended: one well-keyed lead processes without
abort, and an email-less lead right after it aborts the pass with the
prior state kept. -/
theorem uncaught_exception_aborts_rest_witness :
    (processNewLeads { your_name := "N", your_title := "T", portfolio_link := "P" }
        (fun _ => false) 0 []
        ([{ firstName := some "Ana", email := some "a@x.com", company := some "Acme" }] ++
          { firstName := some "Bob" } :: [])).aborted = true :=
  (uncaught_exception_aborts_rest { your_name := "N", your_title := "T", portfolio_link := "P" }
    (fun _ => false) 0 []
    [{ firstName := some "Ana", email := some "a@x.com", company := some "Acme" }]
    { firstName := some "Bob" } [] rfl (by decide)).1

/-- Witness for C8: an INITIAL_EMAIL_SENT record with no timestamp is
left exactly as it was by the Phase B pass. -/
theorem missing_timestamp_skip_witness :
    lookupStore (processFollowUps 48 0
        (fun _ => { gmailAvailable := true
                    replySearch := Except.ok 0
                    leadFound := true
                    draft := none
                    sendOk := true })
        [("a@x.com", { status := some "INITIAL_EMAIL_SENT" })]).1 "a@x.com" =
      some { status := some "INITIAL_EMAIL_SENT" } :=
  (missing_timestamp_skip 48 0
    (fun _ => { gmailAvailable := true
                replySearch := Except.ok 0
                leadFound := true
                draft := none
                sendOk := true })
    [("a@x.com", { status := some "INITIAL_EMAIL_SENT" })]
    "a@x.com" { status := some "INITIAL_EMAIL_SENT" }
    (by decide) (by decide) rfl rfl).1

/-- Witness for C9: a mapping with a status and a timestamp field reads
back unchanged through a save of its load. -/
theorem state_roundtrip_witness :
    fieldOf (saveState (loadState
        [("a@x.com", [("status", "INITIAL_EMAIL_SENT"),
                      ("initial_sent_timestamp", "2025-01-01T00:00:00+00:00")])]))
      "a@x.com" "initial_sent_timestamp" =
      fieldOf [("a@x.com", [("status", "INITIAL_EMAIL_SENT"),
                            ("initial_sent_timestamp", "2025-01-01T00:00:00+00:00")])]
        "a@x.com" "initial_sent_timestamp" :=
  (state_roundtrip
    [("a@x.com", [("status", "INITIAL_EMAIL_SENT"),
                  ("initial_sent_timestamp", "2025-01-01T00:00:00+00:00")])]
    "a@x.com" "initial_sent_timestamp" (by decide)).2

end Outreach
